import Mathlib

/-!
Verification of the Solon command-dispatch engine: a shallow embedding of
`behavior_registry.py` (pattern matching, app-rule mutators, persistence)
and `command_processor.py` (command processing, behavior execution), with
theorems settling the specification claims about them.

Modeling conventions:
* Python dicts loaded from YAML/JSON are embedded as typed structures;
  association lists keep dict insertion order.
* The OS-facing collaborators (`app_launcher`, `window_manager`,
  `port_manager`) are direct wrappers over OS calls and are modeled as
  boolean-valued oracle parameters (`Env`), matching their interface
  contracts; the heuristic fallback of `parse_direct_command` is likewise
  passed as an oracle, since no claim depends on its internals.
* Python's `re.search` on the compiled patterns is modeled by a
  backtracking matcher over a token list: `{repo}` compiles to a
  non-greedy "one or more of any character except newline" group,
  `{port}` to a greedy "one or more ASCII digits" group, and every other
  character to a case-insensitive literal.  This is the semantics of the
  regex the source builds, for pattern text free of regex metacharacters.
* Case folding (`str.lower` and `re.IGNORECASE`) is modeled for the ASCII
  range by `pyToLower`.
-/

namespace Solon

/-- Left and right curly-brace characters, used by placeholder syntax. -/
def lbrace : Char := Char.ofNat 123

/-- Right curly brace. -/
def rbrace : Char := Char.ofNat 125

/-- ASCII case folding, the model of Python `str.lower` / `re.IGNORECASE`
on the character range the dispatcher handles. -/
def pyToLower (c : Char) : Char :=
  if 65 ≤ c.toNat ∧ c.toNat ≤ 90 then Char.ofNat (c.toNat + 32) else c

/-- Python `str.strip` whitespace set (ASCII). -/
def isSpaceChar (c : Char) : Bool :=
  c = ' ' || c = '\t' || c = '\n' || c = '\r' || c.toNat = 11 || c.toNat = 12

/-- Python `str.strip`: drop leading and trailing whitespace. -/
def pyStrip (s : String) : String :=
  String.mk (((s.toList.dropWhile (isSpaceChar · = true)).reverse.dropWhile
      (isSpaceChar · = true)).reverse)

/-- One step of Python `str.replace` modeled on character lists, with fuel
(the fuel is instantiated with the list length, which suffices for a
non-empty needle). -/
def replaceF (needle repl : List Char) : Nat → List Char → List Char
  | 0, cs => cs
  | _ + 1, [] => []
  | fuel + 1, c :: cs =>
    if needle.isPrefixOf (c :: cs) then
      repl ++ replaceF needle repl fuel ((c :: cs).drop needle.length)
    else
      c :: replaceF needle repl fuel cs

/-- Python `str.replace old new` (for a non-empty `old`). -/
def pyReplace (s needle repl : String) : String :=
  String.mk (replaceF needle.toList repl.toList s.toList.length s.toList)

/-- Substring containment, Python's `in` on strings (non-empty needle). -/
def hasSub (needle : List Char) : List Char → Bool
  | [] => needle.isEmpty
  | c :: cs => needle.isPrefixOf (c :: cs) || hasSub needle cs

/-- The characters of the placeholder `\x7brepo\x7d`. -/
def repoNeedle : List Char := lbrace :: 'r' :: 'e' :: 'p' :: 'o' :: rbrace :: []

/-- The characters of the placeholder `\x7bport\x7d`. -/
def portNeedle : List Char := lbrace :: 'p' :: 'o' :: 'r' :: 't' :: rbrace :: []

/-! ## Compiled patterns

`match_command` compiles a behavior pattern by substituting `(.+?)` for
`\x7brepo\x7d` and `(\d+)` for `\x7bport\x7d` (behavior_registry.py line 87).
We embed the compiled regex as a token list. -/

/-- A token of a compiled behavior pattern. -/
inductive Tok where
  /-- A literal character of the pattern, matched case-insensitively. -/
  | lit (c : Char) : Tok
  /-- The `\x7brepo\x7d` placeholder, compiled to the non-greedy group `(.+?)`. -/
  | repo : Tok
  /-- The `\x7bport\x7d` placeholder, compiled to the digits group `(\d+)`. -/
  | port : Tok
deriving DecidableEq, Repr

/-- Compile a pattern string into tokens: each occurrence of a placeholder
becomes its group token, every other character a literal.  Scanning left
to right agrees with the source's two sequential `str.replace` calls
because the two placeholder strings cannot overlap. -/
def tokenize : List Char → List Tok
  | c1 :: c2 :: c3 :: c4 :: c5 :: c6 :: rest =>
    if c1 = lbrace ∧ c2 = 'r' ∧ c3 = 'e' ∧ c4 = 'p' ∧ c5 = 'o' ∧ c6 = rbrace then
      Tok.repo :: tokenize rest
    else if c1 = lbrace ∧ c2 = 'p' ∧ c3 = 'o' ∧ c4 = 'r' ∧ c5 = 't' ∧ c6 = rbrace then
      Tok.port :: tokenize rest
    else
      Tok.lit c1 :: tokenize (c2 :: c3 :: c4 :: c5 :: c6 :: rest)
  | c :: rest => Tok.lit c :: tokenize rest
  | [] => []

/-- Length of the maximal prefix of ASCII digits (what `(\d+)` can take). -/
def digitLen : List Char → Nat
  | [] => 0
  | c :: cs => if c.isDigit then digitLen cs + 1 else 0

/-- Length of the maximal prefix without a newline (what `(.+?)` can take:
`.` does not match a newline without `re.DOTALL`). -/
def nonNlLen : List Char → Nat
  | [] => 0
  | c :: cs => if c = '\n' then 0 else nonNlLen cs + 1

/-- The list `[n, n-1, ..., 1]`: candidate lengths for a greedy group. -/
def descRange (n : Nat) : List Nat := (List.range n).reverse.map (· + 1)

/-- Backtracking matcher for a compiled pattern anchored at the start of
`cs`, returning the captured groups in group order on success.  Literal
characters compare case-insensitively, `Tok.repo` tries shorter captures
first (non-greedy), `Tok.port` longer first (greedy) — Python's
backtracking order, so the captures agree with `re.search`.  Structural
fuel recursion; every recursive call consumes one token, so fuel
`ts.length` (supplied by `matchToks`) is exact. -/
def matchToksF : Nat → List Tok → List Char → Option (List (List Char))
  | _, [], _ => some []
  | 0, _ :: _, _ => none
  | fuel + 1, Tok.lit c :: ts, cs =>
    match cs with
    | [] => none
    | d :: ds => if pyToLower c = pyToLower d then matchToksF fuel ts ds else none
  | fuel + 1, Tok.repo :: ts, cs =>
    (List.range (nonNlLen cs)).findSome? fun k =>
      (matchToksF fuel ts (cs.drop (k + 1))).map fun caps => cs.take (k + 1) :: caps
  | fuel + 1, Tok.port :: ts, cs =>
    (descRange (digitLen cs)).findSome? fun k =>
      (matchToksF fuel ts (cs.drop k)).map fun caps => cs.take k :: caps

/-- Match a compiled pattern at the start of `cs`. -/
def matchToks (ts : List Tok) (cs : List Char) : Option (List (List Char)) :=
  matchToksF ts.length ts cs

/-- Model of `re.search`: try each start position left to right, return the captures
of the leftmost match. -/
def searchToks (ts : List Tok) : List Char → Option (List (List Char))
  | [] => matchToks ts []
  | c :: cs =>
    match matchToks ts (c :: cs) with
    | some caps => some caps
    | none => searchToks ts cs

/-- Does the compiled pattern of `p` find a match anywhere in `cmd`?  This
is the truthiness of `re.search(param_pattern, command_lower, IGNORECASE)`
on the lowercased command. -/
def compiledMatches (p cmd : String) : Bool :=
  (searchToks (tokenize p.toList) (cmd.toList.map pyToLower)).isSome

/-! ## Data model -/

/-- An ActionSpec: the YAML mapping of one action.  Each field mirrors a
key read by `execute_behavior` with that key's `dict.get` default; an
action of some type simply never reads the other types' fields. -/
structure Action where
  /-- The action's `type` key (arbitrary string; unrecognized types fall
  through every branch of `execute_behavior`). -/
  type : String
  /-- The `app` key (launch_app, move_windows, close_windows_except). -/
  app : String
  /-- The `args` key (launch_app). -/
  args : List String
  /-- The `display` key (move_windows), default 1. -/
  display : Int
  /-- The `maximize` key (move_windows), default false. -/
  maximize : Bool
  /-- The `repo_path` key (close_windows_except). -/
  repo_path : String
  /-- The `port` key (kill_port): a template string. -/
  port : String
deriving DecidableEq, Repr

/-- A behavior record from the behaviors document: `name`, `pattern`,
`actions` (the name may be absent, `behavior.get('name')`). -/
structure Behavior where
  /-- The behavior's `name` key (optional in the document). -/
  name : Option String
  /-- The behavior's `pattern` key (`behavior.get('pattern', '')`). -/
  pattern : String
  /-- The behavior's `actions` key (`behavior.get('actions', [])`). -/
  actions : List Action
deriving DecidableEq, Repr

/-- The result of `match_command`: the matched behavior and the extracted
parameters, a dict in insertion order (`repo` before `port`).  A value is
`none` exactly when the Python code stores `None` (no capture groups). -/
structure MatchResult where
  /-- The matched behavior. -/
  behavior : Behavior
  /-- The extracted `params` dict. -/
  params : List (String × Option String)
deriving DecidableEq, Repr

/-- The behaviors list of a registry, in registration (document) order. -/
abbrev Behaviors := List Behavior

/-- BehaviorRegistry.match_command: iterate the behaviors in registration
order, skip behaviors whose pattern is empty, and return the first whose
compiled pattern matches the lowercased command, with the extracted
parameters.  Both `repo` and `port` are read from `match.group(1)`
(behavior_registry.py lines 95-98): the head of the capture list. -/
def matchLoop (cmdLower : List Char) : Behaviors → Option MatchResult
  | [] => none
  | b :: bs =>
    if b.pattern = "" then matchLoop cmdLower bs
    else
      match searchToks (tokenize b.pattern.toList) cmdLower with
      | some caps =>
        let g1 : Option String := caps.head?.map String.mk
        some
          { behavior := b
            params :=
              (if hasSub repoNeedle b.pattern.toList then [("repo", g1)] else []) ++
              (if hasSub portNeedle b.pattern.toList then [("port", g1)] else []) }
      | none => matchLoop cmdLower bs

/-- BehaviorRegistry.match_command (behavior_registry.py lines 77-105). -/
def match_command (behaviors : Behaviors) (command : String) : Option MatchResult :=
  matchLoop (command.toList.map pyToLower) behaviors

/-! ## Command processor -/

/-- The OS-facing collaborators consumed by `execute_behavior`
(`app_launcher.launch_app`, `window_manager.move_windows_to_display`,
`window_manager.close_windows_except`, `port_manager.kill_port`).  Their
bodies are one-shot OS-call wrappers; per their interface contracts they
return a boolean, so they are modeled as boolean-valued oracles. -/
structure Env where
  /-- Contract `launch_app(app, args) -> bool`. -/
  launch_app : String → List String → Bool
  /-- Contract `move_windows_to_display(app, display, maximize) -> bool`. -/
  move_windows_to_display : String → Int → Bool → Bool
  /-- Contract `close_windows_except(app, repo_path) -> bool`. -/
  close_windows_except : String → String → Bool
  /-- Contract `kill_port(port) -> bool`. -/
  kill_port : Int → Bool

/-- Python `str(value)` on a params value (`str(None) = "None"`). -/
def pyStr : Option String → String
  | some s => s
  | none => "None"

/-- CommandProcessor._substitute_params: replace each `\x7bkey\x7d` by the
corresponding value, iterating the params dict in insertion order. -/
def substitute (text : String) (params : List (String × Option String)) : String :=
  params.foldl
    (fun acc kv => pyReplace acc (String.mk (lbrace :: kv.1.toList ++ [rbrace])) (pyStr kv.2))
    text

/-- Python `int(s)`: optional surrounding whitespace, an optional sign and
one or more digits; anything else raises `ValueError` (modeled as `none`). -/
def pyInt (s : String) : Option Int :=
  let cs := (pyStrip s).toList
  let go : List Char → Option Nat := fun l =>
    if l ≠ [] ∧ l.all (·.isDigit) then
      some (l.foldl (fun acc c => acc * 10 + (c.toNat - 48)) 0)
    else none
  match cs with
  | '-' :: rest => (go rest).map fun n => -(n : Int)
  | '+' :: rest => (go rest).map fun n => (n : Int)
  | _ => (go cs).map fun n => (n : Int)

/-- One iteration of the action loop of `CommandProcessor.execute_behavior`
(command_processor.py lines 52-80): dispatch on the action's `type` and
produce the `result` value appended for it — a boolean from the
collaborator call (`False` when the kill_port argument fails `int`
conversion), or `None` for an unrecognized type. -/
def execAction (env : Env) (params : List (String × Option String)) (a : Action) :
    Option Bool :=
  if a.type = "launch_app" then
    some (env.launch_app (substitute a.app params) (a.args.map (substitute · params)))
  else if a.type = "move_windows" then
    some (env.move_windows_to_display (substitute a.app params) a.display a.maximize)
  else if a.type = "close_windows_except" then
    some (env.close_windows_except (substitute a.app params) (substitute a.repo_path params))
  else if a.type = "kill_port" then
    match pyInt (substitute a.port params) with
    | some n => some (env.kill_port n)
    | none => some false
  else none

/-- The action loop: build the `results` list in action order. -/
def runActions (env : Env) (params : List (String × Option String)) :
    List Action → List (Option Bool)
  | [] => []
  | a :: rest => execAction env params a :: runActions env params rest

/-- Python truthiness of a `result` entry (`None` is falsy). -/
def pyTruthy : Option Bool → Bool
  | some b => b
  | none => false

/-- The dispatch outcome envelope.  The Python code returns dicts whose
keys vary by path; absent keys are modeled as the `none` / `[]` defaults
(`results := []` and `error := none` for a behavior outcome, and so on). -/
structure CommandResult where
  /-- The `success` key. -/
  success : Bool
  /-- The `behavior` key (the behavior's optional name), absent on failure. -/
  behavior : Option String
  /-- The `results` key: the per-action outcomes, absent on failure. -/
  results : List (Option Bool)
  /-- The `error` key, present only on failure paths. -/
  error : Option String
deriving DecidableEq, Repr

/-- CommandProcessor.execute_behavior (command_processor.py lines 47-87):
run every action in order, collect the outcomes, and report
`success = all(results) if results else False`. -/
def execute_behavior (env : Env) (b : Behavior)
    (params : List (String × Option String)) : CommandResult :=
  let results := runActions env params b.actions
  { success := if results.isEmpty then false else results.all pyTruthy
    behavior := b.name
    results := results
    error := none }

/-- CommandProcessor.process_command (command_processor.py lines 31-45):
strip the command, fail fast on an empty command, otherwise ask the
registry for a match and execute it, falling back to
`parse_direct_command` (whose heuristics no claim depends on; it is
passed as an oracle). -/
def process_command (fallback : String → CommandResult) (env : Env)
    (behaviors : Behaviors) (command : String) : CommandResult :=
  let command := pyStrip command
  if command = "" then
    { success := false, behavior := none, results := [], error := some "Empty command" }
  else
    match match_command behaviors command with
    | some m => execute_behavior env m.behavior m.params
    | none => fallback command

/-! ## App rules and registry mutators -/

/-- One display rule: `{app, behavior, maximize}`. -/
structure DisplayRule where
  /-- The `app` key. -/
  app : String
  /-- The `behavior` key (`keep_same`, `maximize`, `minimize`). -/
  behavior : String
  /-- The `maximize` key. -/
  maximize : Bool
deriving DecidableEq, Repr

/-- The `startup` part of the app-rules document. -/
structure Startup where
  /-- Apps kept open at startup. -/
  keep_open : List String
  /-- Whether other login apps are closed. -/
  close_others : Bool
deriving DecidableEq, Repr

/-- The app-rules document: `startup` plus `display_rules`, the latter a
dict from display slot to rule list, kept in insertion order.  (The model
is the well-formed document shape; the source's guards for missing
top-level keys re-create exactly these fields.) -/
structure AppRules where
  /-- The `startup` part. -/
  startup : Startup
  /-- The `display_rules` dict, as an insertion-ordered association list. -/
  display_rules : List (String × List DisplayRule)
deriving DecidableEq, Repr

/-- Look up a display slot (`display_rules.get(display, [])`). -/
def getSlot (rules : List (String × List DisplayRule)) (display : String) :
    List DisplayRule :=
  match rules.find? (fun kv => kv.1 = display) with
  | some kv => kv.2
  | none => []

/-- Python dict assignment `rules[display] = v`: update the key in place
if present, else append it (dict insertion order). -/
def setSlot : List (String × List DisplayRule) → String → List DisplayRule →
    List (String × List DisplayRule)
  | [], d, v => [(d, v)]
  | (k, w) :: rest, d, v =>
    if k = d then (k, v) :: rest else (k, w) :: setSlot rest d v

/-- Does the dict have the key (`display in rules`)? -/
def hasSlot (rules : List (String × List DisplayRule)) (display : String) : Bool :=
  rules.any (fun kv => kv.1 = display)

/-- Model of `existing[0].update(rule)`: replace the first rule for `app` in place
(the new rule sets all three keys, so the update is a full replacement). -/
def updateFirst (app : String) (r : DisplayRule) : List DisplayRule → List DisplayRule
  | [] => []
  | x :: xs => if x.app = app then r :: xs else x :: updateFirst app r xs

/-- The registry's persistent side: `app_rules` is the in-memory dict,
`storage` the current content of the app-rules JSON document on disk. -/
structure RegistryState where
  /-- In-memory `self.app_rules`. -/
  app_rules : AppRules
  /-- The app-rules document on disk. -/
  storage : AppRules
deriving DecidableEq, Repr

/-- BehaviorRegistry.save_app_rules (lines 67-75): serialize the in-memory
rules to the document and return `True`; on a filesystem error (abstracted
by `ok = false`) print the error and return `False`, leaving the document
as it was. -/
def save_app_rules (ok : Bool) (s : RegistryState) : RegistryState × Bool :=
  if ok then ({ s with storage := s.app_rules }, true) else (s, false)

/-- BehaviorRegistry.load_app_rules, success path (lines 49-53): read the
document back into memory; `reload` re-runs it.  (The missing/malformed
file branch substitutes a default document and is not exercised here.) -/
def reload (s : RegistryState) : RegistryState :=
  { s with app_rules := s.storage }

/-- BehaviorRegistry.add_display_rule (lines 116-137).  The pair's second
component is the Python return value (`None`). -/
def add_display_rule (ok : Bool) (s : RegistryState) (display app behavior : String)
    (maximize : Bool) : RegistryState × Option Bool :=
  let dr0 := s.app_rules.display_rules
  let dr1 := if hasSlot dr0 display then dr0 else setSlot dr0 display []
  let slotRules := getSlot dr1 display
  let rule : DisplayRule := { app := app, behavior := behavior, maximize := maximize }
  let slotRules' :=
    if slotRules.any (fun r => r.app = app) then updateFirst app rule slotRules
    else slotRules ++ [rule]
  let s' := { s with app_rules := { s.app_rules with display_rules := setSlot dr1 display slotRules' } }
  ((save_app_rules ok s').1, none)

/-- BehaviorRegistry.remove_display_rule (lines 139-151): no-op when the
slot key is absent; otherwise filter out the app's rules and save. -/
def remove_display_rule (ok : Bool) (s : RegistryState) (display app : String) :
    RegistryState × Option Bool :=
  if hasSlot s.app_rules.display_rules display then
    let slotRules' := (getSlot s.app_rules.display_rules display).filter fun r => ¬ r.app = app
    let s' := { s with app_rules :=
      { s.app_rules with display_rules := setSlot s.app_rules.display_rules display slotRules' } }
    ((save_app_rules ok s').1, none)
  else (s, none)

/-- BehaviorRegistry.add_startup_app (lines 153-163): append the app to
`keep_open` and save, only when it is not already present. -/
def add_startup_app (ok : Bool) (s : RegistryState) (app : String) :
    RegistryState × Option Bool :=
  if s.app_rules.startup.keep_open.contains app then (s, none)
  else
    let s' := { s with app_rules :=
      { s.app_rules with startup :=
        { s.app_rules.startup with keep_open := s.app_rules.startup.keep_open ++ [app] } } }
    ((save_app_rules ok s').1, none)

/-- BehaviorRegistry.remove_startup_app (lines 165-175): filter the app
out of `keep_open` and save. -/
def remove_startup_app (ok : Bool) (s : RegistryState) (app : String) :
    RegistryState × Option Bool :=
  let s' := { s with app_rules :=
    { s.app_rules with startup :=
      { s.app_rules.startup with keep_open := s.app_rules.startup.keep_open.filter (· ≠ app) } } }
  ((save_app_rules ok s').1, none)

/-! ## Shared anchor values for concrete instances -/

/-- A trivial collaborator environment (every call succeeds). -/
def env0 : Env :=
  { launch_app := fun _ _ => true
    move_windows_to_display := fun _ _ _ => true
    close_windows_except := fun _ _ => true
    kill_port := fun _ => true }

/-- A trivial fallback oracle. -/
def fb0 : String → CommandResult :=
  fun _ => { success := true, behavior := none, results := [], error := none }

/-- The default app-rules document of `load_app_rules`. -/
def rules0 : AppRules :=
  { startup := { keep_open := [], close_others := true }
    display_rules := [("w1", []), ("w2", []), ("laptop", [])] }

/-- A registry whose memory and storage both hold the default document. -/
def s0reg : RegistryState := { app_rules := rules0, storage := rules0 }

/-! ## Helper lemmas -/

theorem save_app_rules_fst_app_rules (ok : Bool) (s : RegistryState) :
    (save_app_rules ok s).1.app_rules = s.app_rules := by
  cases ok <;> rfl

theorem runActions_eq_map (env : Env) (params : List (String × Option String)) :
    ∀ l : List Action, runActions env params l = l.map (execAction env params)
  | [] => rfl
  | a :: rest => by rw [runActions, List.map_cons, runActions_eq_map env params rest]

theorem pyTruthy_eq_beq (r : Option Bool) : pyTruthy r = (r == some true) := by
  cases r with
  | none => rfl
  | some b => cases b <;> rfl

theorem all_pyTruthy_eq (l : List (Option Bool)) :
    l.all pyTruthy = l.all (· == some true) := by
  induction l with
  | nil => rfl
  | cons r rest ih => simp [List.all_cons, pyTruthy_eq_beq, ih]

theorem char_toNat_ofNat_of_lt (n : Nat) (h : n < 55296) : (Char.ofNat n).toNat = n := by
  rw [Char.ofNat, dif_pos (Or.inl h)]
  rfl

theorem pyToLower_idem (c : Char) : pyToLower (pyToLower c) = pyToLower c := by
  unfold pyToLower
  by_cases h : 65 ≤ c.toNat ∧ c.toNat ≤ 90
  · rw [if_pos h]
    have hval : (Char.ofNat (c.toNat + 32)).toNat = c.toNat + 32 :=
      char_toNat_ofNat_of_lt _ (by omega)
    rw [if_neg]
    intro hcon
    rw [hval] at hcon
    omega
  · rw [if_neg h, if_neg h]

theorem matchToksF_lit_self : ∀ l : List Char,
    matchToksF (l.map Tok.lit).length (l.map Tok.lit) (l.map pyToLower) = some []
  | [] => rfl
  | c :: cs => by
    simp only [List.map_cons, List.length_cons, matchToksF, pyToLower_idem, if_pos]
    exact matchToksF_lit_self cs

theorem searchToks_of_matchToks {ts : List Tok} {cs : List Char}
    {caps : List (List Char)} (h : matchToks ts cs = some caps) :
    searchToks ts cs = some caps := by
  cases cs with
  | nil => rw [searchToks]; exact h
  | cons c cs => rw [searchToks, h]

/-- The predicate "this behavior is considered and its compiled pattern
matches the command": behaviors with an empty pattern are skipped by
`match_command` before compilation. -/
def consideredMatch (cmd : String) (b : Behavior) : Bool :=
  if b.pattern = "" then false else compiledMatches b.pattern cmd

theorem matchLoop_map_behavior (cl : List Char) (bs : Behaviors) :
    (matchLoop cl bs).map (·.behavior) =
      bs.find? fun b =>
        if b.pattern = "" then false
        else (searchToks (tokenize b.pattern.toList) cl).isSome := by
  induction bs with
  | nil => rfl
  | cons b bs ih =>
    by_cases hp : b.pattern = ""
    · rw [matchLoop, if_pos hp, ih, List.find?_cons_of_neg]
      simp [hp]
    · cases hs : searchToks (tokenize b.pattern.toList) cl with
      | some caps =>
        have hs' : searchToks (tokenize b.pattern.data) cl = some caps := hs
        rw [matchLoop, if_neg hp, hs, List.find?_cons_of_pos]
        · rfl
        · simp [hp, hs']
      | none =>
        have hs' : searchToks (tokenize b.pattern.data) cl = none := hs
        rw [matchLoop, if_neg hp, hs, ih, List.find?_cons_of_neg]
        simp [hp, hs']

theorem match_command_map_behavior (bs : Behaviors) (cmd : String) :
    (match_command bs cmd).map (·.behavior) = bs.find? (consideredMatch cmd) := by
  simp only [match_command, consideredMatch, compiledMatches]
  exact matchLoop_map_behavior (cmd.toList.map pyToLower) bs

theorem find?_of_exists {α : Type} {p : α → Bool} {l : List α}
    (h : ∃ x, x ∈ l ∧ p x = true) : ∃ y, l.find? p = some y := by
  cases hf : l.find? p with
  | some y => exact ⟨y, rfl⟩
  | none =>
    obtain ⟨x, hmem, hpx⟩ := h
    rw [List.find?_eq_none] at hf
    exact absurd hpx (by simpa using hf x hmem)

theorem first_match_of_exists (bs : Behaviors) (cmd : String)
    (h : ∃ b, b ∈ bs ∧ b.pattern ≠ "" ∧ compiledMatches b.pattern cmd = true) :
    ∃ b, bs.find? (consideredMatch cmd) = some b ∧
      (match_command bs cmd).map (·.behavior) = some b := by
  obtain ⟨b, hmem, hne, hcm⟩ := h
  obtain ⟨y, hy⟩ := @find?_of_exists Behavior (consideredMatch cmd) bs
    ⟨b, hmem, by simp [consideredMatch, hne, hcm]⟩
  exact ⟨y, hy, by rw [match_command_map_behavior, hy]⟩

/-! ## Claim theorems -/

/-- A behavior whose single action launches app `a`. -/
def launchOnly (a : String) : Action :=
  { type := "launch_app", app := a, args := [], display := 1, maximize := false
    repo_path := "", port := "" }

/-- A collaborator environment in which launching `B` fails and every
other call succeeds. -/
def envTFT : Env :=
  { launch_app := fun a _ => !(a == "B")
    move_windows_to_display := fun _ _ _ => true
    close_windows_except := fun _ _ => true
    kill_port := fun _ => true }

/-- A behavior whose actions launch `A`, `B`, `C` in order. -/
def bABC : Behavior :=
  { name := some "abc", pattern := "abc"
    actions := [launchOnly "A", launchOnly "B", launchOnly "C"] }

/-- C2: executing a behavior attempts every action in order — the
`results` field is exactly the list of per-action outcomes, one entry per
action, each computed from that action alone (so no failure short-circuits
a later action); in particular, actions [A succeeds, B fails, C succeeds]
produce `results = [True, False, True]` with `success = False`. -/
theorem execute_behavior_attempts_all_actions :
    (∀ (env : Env) (b : Behavior) (params : List (String × Option String)),
      (execute_behavior env b params).results = b.actions.map (execAction env params)) ∧
    (execute_behavior envTFT bABC []).results = [some true, some false, some true] ∧
    (execute_behavior envTFT bABC []).success = false := by
  refine ⟨fun env b params => ?_, rfl, rfl⟩
  show runActions env params b.actions = _
  exact runActions_eq_map env params b.actions

/-- C3: the `success` field of a behavior execution is the conjunction of
all per-action outcomes, and an empty results list (equivalently an empty
action list) yields `success = false`. -/
theorem execute_behavior_success_iff_all :
    (∀ (env : Env) (b : Behavior) (params : List (String × Option String)),
      (execute_behavior env b params).success =
        (!(execute_behavior env b params).results.isEmpty &&
          (execute_behavior env b params).results.all (· == some true))) ∧
    (∀ (env : Env) (name : Option String) (pat : String)
        (params : List (String × Option String)),
      (execute_behavior env { name := name, pattern := pat, actions := [] } params).success =
        false) := by
  refine ⟨fun env b params => ?_, fun env name pat params => rfl⟩
  simp only [execute_behavior]
  cases h : (runActions env params b.actions).isEmpty with
  | false => simp [h, all_pyTruthy_eq]
  | true =>
    have hnil : runActions env params b.actions = [] := by
      cases hl : runActions env params b.actions with
      | nil => rfl
      | cons x xs => rw [hl] at h; simp [List.isEmpty] at h
    simp [hnil]

/-- C5: a command that is empty after stripping surrounding whitespace
yields the deterministic failure result; the result is the same for every
registry, collaborator environment and fallback, so neither the registry's
match nor any collaborator is consulted. -/
theorem process_empty_command_fails (fallback : String → CommandResult) (env : Env)
    (bs : Behaviors) (cmd : String) (h : pyStrip cmd = "") :
    process_command fallback env bs cmd =
      { success := false, behavior := none, results := [], error := some "Empty command" } := by
  rw [process_command]
  simp only [h]
  rfl

/-- Witness for C5 at the whitespace-only command. -/
theorem process_empty_command_fails_witness :
    process_command fb0 env0 [] "   " =
      { success := false, behavior := none, results := [], error := some "Empty command" } :=
  process_empty_command_fails fb0 env0 [] "   " rfl

/-- C1 counterexample: the first registered behavior has the empty pattern,
whose compiled form (the empty regex) matches every text, yet `match`
skips it and returns the later behavior — so the claim "the earliest
behavior among all whose compiled patterns match is returned" fails as
stated. -/
theorem match_skips_empty_pattern_cex :
    compiledMatches "" "x" = true ∧
    (match_command [{ name := some "first", pattern := "", actions := [] },
        { name := some "second", pattern := "x", actions := [] }] "x").map (·.behavior) =
      some { name := some "second", pattern := "x", actions := [] } :=
  ⟨rfl, rfl⟩

/-- C1 amended: among the behaviors `match_command` considers — those with
a non-empty pattern — the earliest registered one whose compiled pattern
matches the command is returned, whenever any such behavior exists
(behaviors are tried in registration order and the first match wins). -/
theorem match_first_registered_wins (bs : Behaviors) (cmd : String)
    (h : ∃ b, b ∈ bs ∧ b.pattern ≠ "" ∧ compiledMatches b.pattern cmd = true) :
    ∃ b, bs.find? (consideredMatch cmd) = some b ∧
      (match_command bs cmd).map (·.behavior) = some b :=
  first_match_of_exists bs cmd h

/-- Witness for the amended C1. -/
theorem match_first_registered_wins_witness :
    ∃ b, ([{ name := some "kp", pattern := "kill port {port}", actions := [] }] :
        Behaviors).find? (consideredMatch "kill port 3000") = some b ∧
      (match_command [{ name := some "kp", pattern := "kill port {port}", actions := [] }]
        "kill port 3000").map (·.behavior) = some b :=
  match_first_registered_wins _ _
    ⟨{ name := some "kp", pattern := "kill port {port}", actions := [] },
      List.mem_singleton.mpr rfl, by decide, rfl⟩

/-- C9 counterexample: the pattern `kill port \x7bport\x7d` with its
placeholder elided gives the non-empty command `kill port ` (with the
trailing space of the literal text), but `match` does not return the
behavior: the compiled `(\d+)` group requires at least one digit, which
the elided text does not supply. -/
theorem elided_pattern_text_no_match_cex :
    match_command [{ name := some "kp", pattern := "kill port {port}", actions := [] }]
      "kill port " = none :=
  rfl

/-- C9 amended: a non-empty command that exactly reproduces a registered
behavior's pattern text is matched successfully whenever that pattern is
pure literal text (contains no placeholder), and `match` returns the
earliest-registered behavior with a non-empty matching compiled pattern —
which is that behavior itself when no earlier-registered pattern also
matches the text. -/
theorem match_literal_pattern_text (bs : Behaviors) (b : Behavior)
    (hmem : b ∈ bs) (hne : b.pattern ≠ "")
    (hlit : tokenize b.pattern.toList = b.pattern.toList.map Tok.lit) :
    ∃ mr, match_command bs b.pattern = some mr ∧
      bs.find? (consideredMatch b.pattern) = some mr.behavior := by
  have hcm : compiledMatches b.pattern b.pattern = true := by
    rw [compiledMatches, hlit]
    have hmt : matchToks (b.pattern.toList.map Tok.lit) (b.pattern.toList.map pyToLower) =
        some [] := by
      rw [matchToks]
      have := matchToksF_lit_self b.pattern.toList
      simpa using this
    rw [searchToks_of_matchToks hmt]
    rfl
  obtain ⟨y, hy, hmap⟩ := first_match_of_exists bs b.pattern ⟨b, hmem, hne, hcm⟩
  obtain ⟨mr, hmr, hb⟩ := Option.map_eq_some'.mp hmap
  exact ⟨mr, hmr, by rw [hy, hb]⟩

/-- Witness for the amended C9. -/
theorem match_literal_pattern_text_witness :
    ∃ mr, match_command [{ name := some "os", pattern := "open slack", actions := [] }]
        "open slack" = some mr ∧
      ([{ name := some "os", pattern := "open slack", actions := [] }] :
        Behaviors).find? (consideredMatch "open slack") = some mr.behavior :=
  match_literal_pattern_text _ _ (List.mem_singleton.mpr rfl) (by decide) (by decide)

/-- C4: evaluation exhibiting the code's divergence from the claim.  For a
pattern declaring both placeholders, the compiled regex captures the repo
in group 1 ("myrepo") and the port in group 2 ("3000"), but the source
reads `match.group(1)` for **both** parameters (behavior_registry.py lines
95-98), so `port` is bound to the repo's capture "myrepo" instead of its
own sub-pattern's capture "3000". -/
theorem match_binds_port_to_group_one :
    match_command
        [{ name := some "orp", pattern := "open {repo} on port {port}", actions := [] }]
        "open myrepo on port 3000" =
      some { behavior :=
               { name := some "orp", pattern := "open {repo} on port {port}", actions := [] }
             params := [("repo", some "myrepo"), ("port", some "myrepo")] } :=
  rfl

/-- C8 counterexample: a behavior whose single action has the unrecognized
type `dance` records the Python `None` — not a boolean — as that action's
entry in `results`. -/
theorem unknown_action_result_not_bool_cex :
    ((execute_behavior env0
        { name := some "weird", pattern := ""
          actions := [{ type := "dance", app := "", args := [], display := 1
                        maximize := false, repo_path := "", port := "" }] }
        []).results.all fun r => r.isSome) = false :=
  rfl

/-- C8 amended: a behavior-driven result envelope carries the behavior's
(optional) name and one `results` entry per action in order; the entry of
every action with a *recognized* type (`launch_app`, `move_windows`,
`close_windows_except`, `kill_port`) is a boolean, while an unrecognized
type records `None`. -/
theorem execute_behavior_envelope_shape :
    (∀ (env : Env) (b : Behavior) (params : List (String × Option String)),
      (execute_behavior env b params).behavior = b.name ∧
      (execute_behavior env b params).results.length = b.actions.length) ∧
    (∀ (env : Env) (params : List (String × Option String)) (a : Action),
      (a.type = "launch_app" ∨ a.type = "move_windows" ∨
        a.type = "close_windows_except" ∨ a.type = "kill_port") →
      (execAction env params a).isSome = true) := by
  constructor
  · intro env b params
    refine ⟨rfl, ?_⟩
    show (runActions env params b.actions).length = _
    rw [runActions_eq_map, List.length_map]
  · intro env params a h
    rcases h with h | h | h | h <;> simp only [execAction, h] <;> simp
    cases pyInt (substitute a.port params) <;> simp

/-- Witness for the amended C8 at a concrete kill_port action. -/
theorem execute_behavior_envelope_shape_witness :
    (execAction env0 []
      { type := "kill_port", app := "", args := [], display := 1, maximize := false
        repo_path := "", port := "3000" }).isSome = true :=
  execute_behavior_envelope_shape.2 env0 [] _ (Or.inr (Or.inr (Or.inr rfl)))

/-! ## Display-rule slot lemmas (for C6) -/

/-- Number of rules for `app` in a slot's rule list. -/
def countApp (app : String) (l : List DisplayRule) : Nat :=
  l.countP fun r => r.app = app

theorem getSlot_setSlot (rules : List (String × List DisplayRule)) (d : String)
    (v : List DisplayRule) : getSlot (setSlot rules d v) d = v := by
  induction rules with
  | nil => simp [setSlot, getSlot, List.find?]
  | cons kv rest ih =>
    obtain ⟨k, w⟩ := kv
    by_cases h : k = d
    · simp [setSlot, h, getSlot, List.find?]
    · simpa [setSlot, h, getSlot, List.find?] using ih

theorem hasSlot_setSlot (rules : List (String × List DisplayRule)) (d : String)
    (v : List DisplayRule) : hasSlot (setSlot rules d v) d = true := by
  induction rules with
  | nil => simp [setSlot, hasSlot]
  | cons kv rest ih =>
    obtain ⟨k, w⟩ := kv
    by_cases h : k = d
    · simp [setSlot, h, hasSlot]
    · simpa [setSlot, h, hasSlot] using ih

theorem getSlot_of_not_hasSlot (rules : List (String × List DisplayRule)) (d : String)
    (h : hasSlot rules d = false) : getSlot rules d = [] := by
  rw [getSlot, List.find?_eq_none.mpr]
  intro kv hmem
  simp only [hasSlot, List.any_eq_false] at h
  simpa using h kv hmem

theorem updateFirst_length (a : String) (r : DisplayRule) :
    ∀ l : List DisplayRule, (updateFirst a r l).length = l.length
  | [] => rfl
  | x :: xs => by
    by_cases h : x.app = a
    · simp [updateFirst, h]
    · simp [updateFirst, h, updateFirst_length a r xs]

theorem filter_updateFirst (app : String) (r : DisplayRule) (hr : r.app = app) :
    ∀ l : List DisplayRule, l.countP (fun x => x.app = app) ≤ 1 →
      l.any (fun x => x.app = app) = true →
      (updateFirst app r l).filter (fun x => x.app = app) = [r] := by
  intro l
  induction l with
  | nil => intro _ hany; simp at hany
  | cons x xs ih =>
    intro hcount hany
    by_cases h : x.app = app
    · have hzero : xs.countP (fun x => x.app = app) = 0 := by
        rw [List.countP_cons_of_pos] at hcount
        · omega
        · simpa using h
      have hfil : xs.filter (fun x => x.app = app) = [] := by
        rw [← List.length_eq_zero, ← List.countP_eq_length_filter]
        exact hzero
      simp [updateFirst, h, List.filter_cons, hr, hfil]
    · have hcount' : xs.countP (fun x => x.app = app) ≤ 1 := by
        rw [List.countP_cons_of_neg] at hcount
        · exact hcount
        · simpa using h
      have hany' : xs.any (fun x => x.app = app) = true := by
        simpa [List.any_cons, h] using hany
      simp [updateFirst, h, List.filter_cons, ih hcount' hany']

theorem add_display_rule_slot (ok : Bool) (s : RegistryState)
    (display app beh : String) (mx : Bool) :
    getSlot (add_display_rule ok s display app beh mx).1.app_rules.display_rules display =
      (if (getSlot s.app_rules.display_rules display).any (fun r => r.app = app) then
        updateFirst app { app := app, behavior := beh, maximize := mx }
          (getSlot s.app_rules.display_rules display)
      else
        getSlot s.app_rules.display_rules display ++
          [{ app := app, behavior := beh, maximize := mx }]) := by
  rw [add_display_rule]
  simp only [save_app_rules_fst_app_rules]
  cases hk : hasSlot s.app_rules.display_rules display with
  | true => simp only [hk, if_true, getSlot_setSlot]
  | false =>
    simp only [hk, Bool.false_eq_true, if_false, getSlot_setSlot,
      getSlot_of_not_hasSlot _ _ hk]

/-- C6: starting from a state respecting the at-most-one-rule-per-(slot,
app) invariant, `add_display_rule` leaves exactly one rule for the pair,
holding the latest `behavior`/`maximize` values; a second call for the
same pair replaces that rule in place (the slot's rule count does not
grow), so two calls still leave exactly one rule, reflecting the latest
call. -/
theorem add_display_rule_unique_per_pair (ok1 ok2 : Bool) (s : RegistryState)
    (display app beh1 beh2 : String) (mx1 mx2 : Bool)
    (h : countApp app (getSlot s.app_rules.display_rules display) ≤ 1) :
    ((getSlot (add_display_rule ok1 s display app beh1 mx1).1.app_rules.display_rules
        display).filter fun r => r.app = app) =
      [{ app := app, behavior := beh1, maximize := mx1 }] ∧
    ((getSlot (add_display_rule ok2 (add_display_rule ok1 s display app beh1 mx1).1
        display app beh2 mx2).1.app_rules.display_rules display).filter
        fun r => r.app = app) =
      [{ app := app, behavior := beh2, maximize := mx2 }] ∧
    (getSlot (add_display_rule ok2 (add_display_rule ok1 s display app beh1 mx1).1
        display app beh2 mx2).1.app_rules.display_rules display).length =
      (getSlot (add_display_rule ok1 s display app beh1 mx1).1.app_rules.display_rules
        display).length := by
  set l0 := getSlot s.app_rules.display_rules display with hl0
  have h1 : (getSlot (add_display_rule ok1 s display app beh1 mx1).1.app_rules.display_rules
      display).filter (fun r => r.app = app) =
      [{ app := app, behavior := beh1, maximize := mx1 }] := by
    rw [add_display_rule_slot, ← hl0]
    by_cases hany : (l0.any fun r => r.app = app) = true
    · rw [if_pos hany]
      exact filter_updateFirst app _ rfl l0 h hany
    · rw [if_neg hany]
      have hanyf : (l0.any fun r => r.app = app) = false := by
        simpa using hany
      have hnil : l0.filter (fun r => r.app = app) = [] := by
        rw [List.filter_eq_nil_iff]
        intro a hmem
        simp only [List.any_eq_false] at hanyf
        simpa using hanyf a hmem
      simp [List.filter_append, hnil, List.filter_cons]
  refine ⟨h1, ?_, ?_⟩
  · rw [add_display_rule_slot]
    set l1 := getSlot (add_display_rule ok1 s display app beh1 mx1).1.app_rules.display_rules
      display with hl1
    have hcount1 : l1.countP (fun r => r.app = app) ≤ 1 := by
      rw [List.countP_eq_length_filter, h1]
      simp
    have hany1 : l1.any (fun r => r.app = app) = true := by
      rw [List.any_eq_true]
      have : { app := app, behavior := beh1, maximize := mx1 } ∈
          l1.filter (fun r => r.app = app) := by rw [h1]; exact List.mem_singleton.mpr rfl
      exact ⟨_, (List.mem_filter.mp this).1, (List.mem_filter.mp this).2⟩
    rw [if_pos hany1]
    exact filter_updateFirst app _ rfl l1 hcount1 hany1
  · rw [add_display_rule_slot]
    set l1 := getSlot (add_display_rule ok1 s display app beh1 mx1).1.app_rules.display_rules
      display with hl1
    have hany1 : l1.any (fun r => r.app = app) = true := by
      rw [List.any_eq_true]
      have : { app := app, behavior := beh1, maximize := mx1 } ∈
          l1.filter (fun r => r.app = app) := by rw [h1]; exact List.mem_singleton.mpr rfl
      exact ⟨_, (List.mem_filter.mp this).1, (List.mem_filter.mp this).2⟩
    rw [if_pos hany1]
    exact updateFirst_length app _ l1

/-- Witness for C6: two adds for (`w1`, `Slack`) on the default registry
leave exactly the one rule from the latest call. -/
theorem add_display_rule_unique_per_pair_witness :
    ((getSlot (add_display_rule true (add_display_rule true s0reg "w1" "Slack"
        "keep_same" false).1 "w1" "Slack" "maximize" true).1.app_rules.display_rules
        "w1").filter fun r => r.app = "Slack") =
      [{ app := "Slack", behavior := "maximize", maximize := true }] :=
  (add_display_rule_unique_per_pair true true s0reg "w1" "Slack" "keep_same" "maximize"
    false true (by decide)).2.1

/-- C7: on a registry in sync with its storage whose `keep_open` respects
the no-duplicates invariant for `app`, calling `add_startup_app` once or
twice and then reloading from storage yields `keep_open` containing `app`
exactly once; and every `add_startup_app` call preserves the
no-duplicate-names invariant of `keep_open`. -/
theorem add_startup_app_roundtrip_once (s t : RegistryState) (app app2 : String)
    (ok2 : Bool) (hsync : s.storage = s.app_rules)
    (hcount : s.app_rules.startup.keep_open.count app ≤ 1)
    (hnodup : t.app_rules.startup.keep_open.Nodup) :
    (reload (add_startup_app true s app).1).app_rules.startup.keep_open.count app = 1 ∧
    (reload (add_startup_app true (add_startup_app true s app).1
      app).1).app_rules.startup.keep_open.count app = 1 ∧
    (add_startup_app ok2 t app2).1.app_rules.startup.keep_open.Nodup := by
  have hthird : (add_startup_app ok2 t app2).1.app_rules.startup.keep_open.Nodup := by
    by_cases hct : t.app_rules.startup.keep_open.contains app2 = true
    · rw [add_startup_app, if_pos hct]
      exact hnodup
    · have hmem : app2 ∉ t.app_rules.startup.keep_open := by
        intro hm
        exact hct (by simpa [List.contains] using hm)
      rw [add_startup_app, if_neg hct]
      have hget : ((save_app_rules ok2
          { t with app_rules := { t.app_rules with startup :=
            { t.app_rules.startup with
              keep_open := t.app_rules.startup.keep_open ++ [app2] } } }).1).app_rules =
          { t.app_rules with startup := { t.app_rules.startup with
            keep_open := t.app_rules.startup.keep_open ++ [app2] } } :=
        save_app_rules_fst_app_rules ok2 _
      rw [hget]
      simp [List.nodup_append, hnodup, hmem]
  by_cases hc : s.app_rules.startup.keep_open.contains app = true
  · have hmem : app ∈ s.app_rules.startup.keep_open := by
      simpa [List.contains] using hc
    have hone : s.app_rules.startup.keep_open.count app = 1 := by
      have := List.count_pos_iff.mpr hmem
      omega
    have hs1 : (add_startup_app true s app).1 = s := by
      rw [add_startup_app, if_pos hc]
    rw [hs1, hs1]
    have hrel : (reload s).app_rules.startup.keep_open.count app = 1 := by
      rw [reload, hsync]
      exact hone
    exact ⟨hrel, hrel, hthird⟩
  · have hmem : app ∉ s.app_rules.startup.keep_open := by
      intro hm
      exact hc (by simpa [List.contains] using hm)
    have hzero : s.app_rules.startup.keep_open.count app = 0 :=
      List.count_eq_zero_of_not_mem hmem
    have hs1 : (add_startup_app true s app).1 =
        { app_rules := { s.app_rules with startup := { s.app_rules.startup with
            keep_open := s.app_rules.startup.keep_open ++ [app] } }
          storage := { s.app_rules with startup := { s.app_rules.startup with
            keep_open := s.app_rules.startup.keep_open ++ [app] } } } := by
      rw [add_startup_app, if_neg hc]
      rfl
    have hcnt1 : (s.app_rules.startup.keep_open ++ [app]).count app = 1 := by
      rw [List.count_append, hzero]
      simp
    have hc1 : (s.app_rules.startup.keep_open ++ [app]).contains app = true := by
      simp [List.contains]
    have hs2 : (add_startup_app true (add_startup_app true s app).1 app).1 =
        (add_startup_app true s app).1 := by
      rw [add_startup_app, if_pos (by rw [hs1]; exact hc1)]
    rw [hs2, hs1]
    exact ⟨hcnt1, hcnt1, hthird⟩

/-- Witness for C7 on the default registry. -/
theorem add_startup_app_roundtrip_once_witness :
    (reload (add_startup_app true s0reg "Foo").1).app_rules.startup.keep_open.count
      "Foo" = 1 :=
  (add_startup_app_roundtrip_once s0reg s0reg "Foo" "Bar" true rfl (by decide)
    (by decide)).1

/-- C10 counterexample: on a persistence failure `add_startup_app` applies
the in-memory change (memory and storage now diverge, third conjunct) yet
returns exactly what it returns on success — Python `None` — so the
failure is *not* reported to the caller (it is only printed by
`save_app_rules`). -/
theorem mutator_save_failure_not_reported_cex :
    (add_startup_app false s0reg "Foo").2 = (add_startup_app true s0reg "Foo").2 ∧
    (add_startup_app false s0reg "Foo").2 = none ∧
    (add_startup_app false s0reg "Foo").1.app_rules ≠
      (add_startup_app false s0reg "Foo").1.storage :=
  ⟨rfl, rfl, by decide⟩

/-- C10 amended: every registry mutator applies its in-memory change first
(the in-memory result is the same whether or not the save succeeds) and
then synchronously persists the full app-rules structure (on a successful
save the storage equals the updated memory, when a save is performed at
all); a persistence failure leaves storage untouched while the in-memory
change is kept, and is logged but not returned to the caller — every
mutator returns `None` regardless of the save outcome. -/
theorem mutators_apply_then_persist (ok : Bool) (s : RegistryState)
    (display app beh : String) (mx : Bool) :
    ((add_display_rule ok s display app beh mx).1.app_rules =
        (add_display_rule true s display app beh mx).1.app_rules ∧
      (add_display_rule ok s display app beh mx).2 = none ∧
      (add_display_rule false s display app beh mx).1.storage = s.storage ∧
      (add_display_rule true s display app beh mx).1.storage =
        (add_display_rule true s display app beh mx).1.app_rules) ∧
    ((remove_display_rule ok s display app).1.app_rules =
        (remove_display_rule true s display app).1.app_rules ∧
      (remove_display_rule ok s display app).2 = none ∧
      (remove_display_rule false s display app).1.storage = s.storage ∧
      (remove_display_rule true s display app).1.storage =
        (if hasSlot s.app_rules.display_rules display then
          (remove_display_rule true s display app).1.app_rules
        else s.storage)) ∧
    ((add_startup_app ok s app).1.app_rules = (add_startup_app true s app).1.app_rules ∧
      (add_startup_app ok s app).2 = none ∧
      (add_startup_app false s app).1.storage = s.storage ∧
      (add_startup_app true s app).1.storage =
        (if s.app_rules.startup.keep_open.contains app then s.storage
        else (add_startup_app true s app).1.app_rules)) ∧
    ((remove_startup_app ok s app).1.app_rules =
        (remove_startup_app true s app).1.app_rules ∧
      (remove_startup_app ok s app).2 = none ∧
      (remove_startup_app false s app).1.storage = s.storage ∧
      (remove_startup_app true s app).1.storage =
        (remove_startup_app true s app).1.app_rules) := by
  refine ⟨⟨?_, rfl, rfl, rfl⟩, ⟨?_, ?_, ?_, ?_⟩, ⟨?_, ?_, ?_, ?_⟩, ⟨?_, rfl, rfl, rfl⟩⟩
  · simp only [add_display_rule, save_app_rules_fst_app_rules]
  · by_cases hk : hasSlot s.app_rules.display_rules display = true <;>
      simp [remove_display_rule, hk, save_app_rules_fst_app_rules]
  · by_cases hk : hasSlot s.app_rules.display_rules display = true <;>
      simp [remove_display_rule, hk, save_app_rules]
  · by_cases hk : hasSlot s.app_rules.display_rules display = true <;>
      simp [remove_display_rule, hk, save_app_rules]
  · by_cases hk : hasSlot s.app_rules.display_rules display = true <;>
      simp [remove_display_rule, hk, save_app_rules]
  · by_cases hc : app ∈ s.app_rules.startup.keep_open <;>
      simp [add_startup_app, hc, save_app_rules_fst_app_rules]
  · by_cases hc : app ∈ s.app_rules.startup.keep_open <;>
      simp [add_startup_app, hc, save_app_rules]
  · by_cases hc : app ∈ s.app_rules.startup.keep_open <;>
      simp [add_startup_app, hc, save_app_rules]
  · by_cases hc : app ∈ s.app_rules.startup.keep_open <;>
      simp [add_startup_app, hc, save_app_rules]
  · simp only [remove_startup_app, save_app_rules_fst_app_rules]

end Solon
